import Mathlib

/-!
Verification of the awesome_agent repository core: a shallow embedding of the
run controller (`AwesomeAgent` in src/unnamed/part_004), the tool registry
(src/unnamed/part_002), the session manager (src/docs/api.md, second blob),
and the filesystem tool (src/src/core/tools/exec.ts), together with theorems
settling the specification claims about them.

Conventions of the embedding:
- JS objects become structures; `Map` becomes an association list with
  `lookupKey` / `setKey` / `eraseKey` (insertion order is irrelevant to every
  claim, only key lookup is used).
- `Date.now()` is modelled by a natural-number clock threaded through the
  state and incremented at each call.
- Opaque JS values (`unknown` tool payloads, argument values) are modelled as
  `String`.
- `async` functions that can throw are modelled with `Except String`; a JS
  `try/catch` becomes a `match` on the `Except`.
- The model backend (`ModelProvider.generate`, an external boundary) is a
  parameter: a function from the call index and the request context to an
  `Except`-wrapped result, covering both normal replies and thrown backend
  errors.
-/

namespace Agent

/-- Association-list lookup for string-keyed JS `Map`s. -/
def lookupKey (k : String) : List (String × α) → Option α
  | [] => none
  | (k', v) :: rest => if k' = k then some v else lookupKey k rest

/-- `Map.delete`: remove the entry with the given key. -/
def eraseKey (k : String) : List (String × α) → List (String × α)
  | [] => []
  | p :: rest => if p.fst = k then eraseKey k rest else p :: eraseKey k rest

/-- `Map.set`: insert or replace the entry with the given key. -/
def setKey (k : String) (v : α) (l : List (String × α)) : List (String × α) :=
  (k, v) :: eraseKey k l

/-- Message roles, from `src/src/types/index.ts` (`Message.role`). -/
inductive Role where
  | user
  | assistant
  | system
  | tool
deriving DecidableEq, Repr

/-- `ToolCall` from `src/src/types/index.ts`: argument values are opaque. -/
structure ToolCall where
  id : String
  name : String
  arguments : List (String × String)
deriving DecidableEq, Repr

/-- `ToolResult` from `src/src/types/index.ts`; `result` is the opaque
payload, `none` standing for JS `null`/`undefined`. -/
structure ToolResult where
  callId : String
  name : String
  result : Option String
  error : Option String
deriving DecidableEq, Repr

/-- `Message` from `src/src/types/index.ts`. -/
structure Message where
  role : Role
  content : String
  toolCalls : Option (List ToolCall) := none
  toolResults : Option (List ToolResult) := none
  timestamp : Nat
deriving DecidableEq, Repr

/-- `Session` from `src/src/types/index.ts` (metadata omitted: never used by
the controller). -/
structure Session where
  id : String
  key : String
  createdAt : Nat
  updatedAt : Nat
  messages : List Message
deriving DecidableEq, Repr

/-- Run status from `src/src/types/index.ts` (`AgentRun.status`). -/
inductive RunStatus where
  | pending
  | running
  | completed
  | error
  | cancelled
deriving DecidableEq, Repr

/-- `AgentRun` from `src/src/types/index.ts`. -/
structure AgentRun where
  id : String
  sessionId : String
  status : RunStatus
  startedAt : Option Nat := none
  endedAt : Option Nat := none
  error : Option String := none
deriving DecidableEq, Repr

/-- `ToolConfig` from `src/src/types/index.ts` (the policy fields used by
`ToolRegistry`). -/
structure ToolConfig where
  name : String
  enabled : Option Bool := none
  allowlist : Option (List String) := none
  denylist : Option (List String) := none
deriving DecidableEq, Repr

/-- `AgentTool` from `src/src/core/tools/base.ts`: a named capability whose
`execute` either returns an opaque payload or fails with a message (a thrown
JS error and a rejected promise are both the `Except.error` case). -/
structure AgentTool where
  name : String
  description : String
  execute : String → List (String × String) → Except String String

/-- `ToolRegistry` state from `src/unnamed/part_002`: the `tools` map and the
`configs` map (built from the constructor's config list). -/
structure ToolRegistry where
  tools : List (String × AgentTool)
  configs : List (String × ToolConfig)

/-- `ToolRegistry.get` from `src/unnamed/part_002` lines 31-42: look the tool
up; return none when absent or when its config has `enabled === false`. -/
def ToolRegistry.get (reg : ToolRegistry) (name : String) : Option AgentTool :=
  match lookupKey name reg.tools with
  | none => none
  | some tool =>
    match lookupKey name reg.configs with
    | some config => if config.enabled = some false then none else some tool
    | none => some tool

/-- `ToolRegistry.checkPermission` from `src/unnamed/part_002` lines 67-83:
no config permits; a configured non-empty allowlist short-circuits to permit
(the source returns `true` there with a "simplified implementation" comment);
otherwise a denylist containing the tool name rejects; otherwise permit. -/
def ToolRegistry.checkPermission (configs : List (String × ToolConfig))
    (toolName : String) : Bool :=
  match lookupKey toolName configs with
  | none => true
  | some config =>
    if (config.allowlist.getD []).length > 0 then true
    else if (config.denylist.getD []).contains toolName then false
    else true

/-- One entry of the array built by `AwesomeAgent.executeTools`
(src/unnamed/part_004 lines 219-266): `{ callId, name, result, error? }`. -/
structure ExecEntry where
  callId : String
  name : String
  result : Option String
  error : Option String
deriving DecidableEq, Repr

/-- `AwesomeAgent.executeTools` from `src/unnamed/part_004` lines 219-266:
for each call, look the tool up via `ToolRegistry.get`; a missing tool throws
`Tool not found: <name>` inside the `try`, and the `catch` turns any failure
(missing tool or the tool's own error) into an entry with `result: null` and
`error` set; a success is pushed with the payload and no error.  Event
emission carries no state and is omitted. -/
def executeTools (reg : ToolRegistry) (toolCalls : List ToolCall) :
    List ExecEntry :=
  toolCalls.map fun call =>
    match reg.get call.name with
    | none =>
      { callId := call.id, name := call.name, result := none,
        error := some ("Tool not found: " ++ call.name) }
    | some tool =>
      match tool.execute call.id call.arguments with
      | Except.ok value =>
        { callId := call.id, name := call.name, result := some value,
          error := none }
      | Except.error e =>
        { callId := call.id, name := call.name, result := none,
          error := some e }

/-- File-system operations performed by the `SessionManager` when persisting
a session (the durable-write trace; reads are not modelled). -/
inductive FsOp where
  | writeFile (path content : String)
  | rename (src dst : String)
deriving DecidableEq, Repr

/-- `SessionManager.getSessionPath`: `join(sessionsDir, sessionId + ".json")`. -/
def sessionPath (sessionsDir id : String) : String :=
  sessionsDir ++ "/" ++ id ++ ".json"

/-- Stand-in for `JSON.stringify(session, null, 2)`: an opaque rendering of
the full session.  No claim inspects the serialized text itself, only which
path a single write carries the whole session to. -/
def serializeMessage (m : Message) : String :=
  (match m.role with
   | Role.user => "user"
   | Role.assistant => "assistant"
   | Role.system => "system"
   | Role.tool => "tool") ++ "|" ++ m.content ++ "|" ++ toString m.timestamp

/-- Stand-in for `JSON.stringify` on a whole session, see `serializeMessage`. -/
def serializeSession (s : Session) : String :=
  s.id ++ "|" ++ toString s.updatedAt ++ "|"
    ++ String.intercalate ";" (s.messages.map serializeMessage)

/-- `SessionManager` state from `src/docs/api.md` (second blob, lines
325-437): the in-memory cache keyed by session id and the durable files
keyed by path (stored structurally; parsing on load is the inverse of the
opaque serialization). -/
structure Store where
  sessions : List (String × Session)
  disk : List (String × Session)
deriving DecidableEq, Repr

/-- `SessionManager.save` (src/docs/api.md blob lines 380-386): set
`updatedAt`, refresh the cache entry, then `fs.writeFile` the serialized
session directly to its final path — a single in-place write, no temporary
file and no rename.  Returns the saved session (the source mutates the
aliased object), the new store, the emitted file operations and the clock. -/
def saveSession (dir : String) (store : Store) (s : Session) (t : Nat) :
    Session × Store × List FsOp × Nat :=
  let s1 := { s with updatedAt := t }
  let path := sessionPath dir s.id
  (s1,
   { sessions := setKey s.id s1 store.sessions,
     disk := setKey path s1 store.disk },
   [FsOp.writeFile path (serializeSession s1)],
   t + 1)

/-- `SessionManager.getOrCreate` (src/docs/api.md blob lines 348-375):
return the cached session; otherwise load from disk and cache it; otherwise
create an empty session, cache it and persist it immediately via `save`. -/
def getOrCreate (dir : String) (store : Store) (sessionId : String) (t : Nat) :
    Session × Store × List FsOp × Nat :=
  match lookupKey sessionId store.sessions with
  | some s => (s, store, [], t)
  | none =>
    match lookupKey (sessionPath dir sessionId) store.disk with
    | some s =>
      (s, { store with sessions := setKey sessionId s store.sessions }, [], t)
    | none =>
      let s0 : Session :=
        { id := sessionId, key := sessionId, createdAt := t,
          updatedAt := t + 1, messages := [] }
      let store1 := { store with sessions := setKey sessionId s0 store.sessions }
      saveSession dir store1 s0 (t + 2)

/-- `GenerateResult` from `src/unnamed/part_003`: assistant text and/or tool
calls (usage accounting omitted — never read by the controller). -/
structure GenerateResult where
  text : String
  toolCalls : Option (List ToolCall) := none
deriving DecidableEq, Repr

/-- The model backend boundary (`ModelProvider.generate`): a function from
the call index within the run and the request context to a reply or a thrown
error.  The available-tool list passed along by the source is constant
within a run, so a backend indexed by call number and context is fully
general. -/
abbrev ModelBackend := Nat → List Message → Except String GenerateResult

/-- The slice of `AgentConfig` (src/src/types/index.ts) read by the run
controller. -/
structure ModelConfig where
  provider : String
  model : String
deriving DecidableEq, Repr

/-- See `ModelConfig`. -/
structure AgentConfig where
  model : ModelConfig
  workspace : String
  thinkingLevel : Option String := none
deriving DecidableEq, Repr

/-- `ToolRegistry.getAvailableTools` (src/unnamed/part_002 lines 47-62):
name and description of every tool whose config is not `enabled === false`. -/
def ToolRegistry.getAvailableTools (reg : ToolRegistry) : List (String × String) :=
  reg.tools.filterMap fun p =>
    match lookupKey p.fst reg.configs with
    | some c =>
      if c.enabled = some false then none else some (p.fst, p.snd.description)
    | none => some (p.fst, p.snd.description)

/-- `AwesomeAgent.buildSystemPrompt` (src/unnamed/part_004 lines 194-213). -/
def buildSystemPrompt (cfg : AgentConfig) (reg : ToolRegistry) : String :=
  let toolDescriptions := String.intercalate "\n"
    ((reg.getAvailableTools).map (fun p => "- " ++ p.fst ++ ": " ++ p.snd))
  "You are Awesome Agent, an advanced AI assistant with access to powerful tools.\n\nAvailable Tools:\n"
    ++ toolDescriptions
    ++ "\n\nGuidelines:\n- Use tools when needed to accomplish tasks\n- Think step by step for complex problems\n- Provide clear, helpful responses\n- If a tool fails, try alternative approaches\n\nCurrent Configuration:\n- Model: "
    ++ cfg.model.provider ++ "/" ++ cfg.model.model
    ++ "\n- Thinking Level: " ++ cfg.thinkingLevel.getD "medium"
    ++ "\n- Workspace: " ++ cfg.workspace

/-- `session.messages.slice(-20)`: the trailing window of n entries. -/
def sliceLast (n : Nat) (l : List α) : List α := l.drop (l.length - n)

/-- `AwesomeAgent.buildContext` (src/unnamed/part_004 lines 173-188): a fresh
system message followed by the most recent 20 transcript entries. -/
def buildContext (cfg : AgentConfig) (reg : ToolRegistry) (session : Session)
    (t : Nat) : List Message × Nat :=
  ({ role := Role.system, content := buildSystemPrompt cfg reg, timestamp := t }
     :: sliceLast 20 session.messages,
   t + 1)

/-- The run controller's shared state: the live-run index `activeRuns`, the
session store, the clock, plus two observation channels of the embedding —
the number of model-backend calls made and the results of the `cancel` calls
applied by the cancellation schedule. -/
structure World where
  runs : List (String × AgentRun)
  store : Store
  time : Nat
  modelCalls : Nat
  cancelLog : List Bool
  fsOps : List FsOp
deriving DecidableEq, Repr

/-- `AwesomeAgent.cancel` (src/unnamed/part_004 lines 271-280): if the id is
tracked with status exactly `running`, delete it from the live-run index and
return true; otherwise leave the index unchanged and return false.  (The
source also sets `status = 'cancelled'` and `endedAt` on the aliased record
just before deleting it; through the index that mutation is unobservable,
and the record itself is threaded by `run`, which later overwrites the
status — see `runAgent`.) -/
def cancel (runs : List (String × AgentRun)) (runId : String) :
    List (String × AgentRun) × Bool :=
  match lookupKey runId runs with
  | some run =>
    if run.status = RunStatus.running then (eraseKey runId runs, true)
    else (runs, false)
  | none => (runs, false)

/-- `AwesomeAgent.getRun` (src/unnamed/part_004 lines 285-287). -/
def getRun (runs : List (String × AgentRun)) (runId : String) : Option AgentRun :=
  lookupKey runId runs

/-- `session.messages.push(msg)` under the cache's reference semantics: the
pushed message lands on the cached session object.  (A run always finds its
session cached — `run` calls `getOrCreate` first; the fallthrough keeps the
function total.) -/
def pushMessage (store : Store) (sessionId : String) (msg : Message) : Store :=
  match lookupKey sessionId store.sessions with
  | some s =>
    { store with
      sessions := setKey sessionId { s with messages := s.messages ++ [msg] }
        store.sessions }
  | none => store

/-- `JSON.stringify(result.result)` on the opaque payload: `null` renders as
the four-character string, a payload stands for its own rendering. -/
def jsonStringify : Option String → String
  | none => "null"
  | some v => v

/-- The tool `Message` pushed for one `executeTools` entry
(src/unnamed/part_004 lines 138-150). -/
def mkToolMessage (entry : ExecEntry) (t : Nat) : Message :=
  { role := Role.tool,
    content := jsonStringify entry.result,
    toolResults := some [{ callId := entry.callId, name := entry.name,
                           result := entry.result, error := entry.error }],
    timestamp := t }

/-- Push one tool message per result, in order (src/unnamed/part_004 lines
138-150). -/
def pushToolMessages (sessionId : String) (entries : List ExecEntry)
    (w : World) : World :=
  match entries with
  | [] => w
  | e :: rest =>
    pushToolMessages sessionId rest
      { w with store := pushMessage w.store sessionId (mkToolMessage e w.time),
               time := w.time + 1 }

/-- Apply the source `cancel` at a scheduled suspension point and record its
return value. -/
def applyCancel (runId : String) (w : World) : World :=
  let (runs1, ok) := cancel w.runs runId
  { w with runs := runs1, cancelLog := w.cancelLog ++ [ok] }

/-- `maxIterations` (src/unnamed/part_004 line 97). -/
def maxIterations : Nat := 10

/-- `AwesomeAgent.agentLoop` (src/unnamed/part_004 lines 96-167), fuel =
remaining iterations, `iter` = the 1-based iteration counter, `ar` = the
accumulated `assistantResponse`.  Per iteration: build the context, call the
backend (a thrown backend error ends the loop exceptionally, mutations so
far kept); accumulate non-empty assistant text; on a non-empty tool-call
list dispatch every call via `executeTools`, push one assistant message
carrying the calls and one tool message per result, and loop; otherwise push
the final assistant message and stop.  When the fuel runs out the loop just
returns the accumulated text.  `cancelAt = some k` schedules a concurrent
`cancel(runId)` at the suspension point after iteration k's tool dispatch
and before the next model call; `none` schedules nothing. -/
def agentLoopGo (cfg : AgentConfig) (reg : ToolRegistry) (backend : ModelBackend)
    (runId sessionId : String) (cancelAt : Option Nat) :
    Nat → Nat → String → World → World × Except String String
  | 0, _, ar, w => (w, Except.ok ar)
  | fuel + 1, iter, ar, w =>
    let session := (lookupKey sessionId w.store.sessions).getD
      { id := sessionId, key := sessionId, createdAt := 0, updatedAt := 0,
        messages := [] }
    let ctxt := buildContext cfg reg session w.time
    let w1 := { w with time := ctxt.snd, modelCalls := w.modelCalls + 1 }
    match backend iter ctxt.fst with
    | Except.error e => (w1, Except.error e)
    | Except.ok resp =>
      let ar1 := if resp.text ≠ "" then ar ++ resp.text else ar
      match resp.toolCalls with
      | some (c :: cs) =>
        let results := executeTools reg (c :: cs)
        let assistantMsg : Message :=
          { role := Role.assistant, content := ar1, toolCalls := some (c :: cs),
            timestamp := w1.time }
        let w2 := { w1 with
                    store := pushMessage w1.store sessionId assistantMsg,
                    time := w1.time + 1 }
        let w3 := pushToolMessages sessionId results w2
        let w4 := if cancelAt = some iter then applyCancel runId w3 else w3
        agentLoopGo cfg reg backend runId sessionId cancelAt fuel (iter + 1) ar1 w4
      | _ =>
        let finalMsg : Message :=
          { role := Role.assistant, content := ar1, timestamp := w1.time }
        ({ w1 with store := pushMessage w1.store sessionId finalMsg,
                   time := w1.time + 1 },
         Except.ok ar1)

/-- The parameters of `AwesomeAgent.run`. -/
structure RunParams where
  sessionId : String
  message : String
  runId : Option String := none
deriving DecidableEq, Repr

/-- The run id and its mint time: `params.runId || run_${Date.now()}_...`
(the generated id keeps only the clock part — no claim inspects generated
ids; the clock ticks only when the id is generated, matching the
short-circuit evaluation). -/
def mintRunId (w : World) (params : RunParams) : String × Nat :=
  match params.runId with
  | some rid => (rid, w.time)
  | none => ("run_" ++ toString w.time, w.time + 1)

/-- The first half of `AwesomeAgent.run` (src/unnamed/part_004 lines 42-65),
up to the agent-loop call: mint the run id, track the record as `pending`
then `running` (the index aliases the record, so the `running` assignment is
visible through it), `getOrCreate` the session, and push the user message —
with no validation of `params.message` whatsoever.  Returns the run id and
the world the loop starts from. -/
def runPrelude (cfg : AgentConfig) (w : World) (params : RunParams) :
    String × World :=
  let dir := cfg.workspace ++ "/sessions"
  let idAndT := mintRunId w params
  let runId := idAndT.fst
  let run0 : AgentRun :=
    { id := runId, sessionId := params.sessionId, status := RunStatus.pending,
      startedAt := some idAndT.snd }
  let runs1 := setKey runId run0 w.runs
  let run1 := { run0 with status := RunStatus.running }
  let runs2 := setKey runId run1 runs1
  let gc := getOrCreate dir w.store params.sessionId (idAndT.snd + 1)
  let userMsg : Message :=
    { role := Role.user, content := params.message,
      timestamp := gc.snd.snd.snd }
  (runId,
   { runs := runs2, store := pushMessage gc.snd.fst params.sessionId userMsg,
     time := gc.snd.snd.snd + 1, modelCalls := w.modelCalls,
     cancelLog := w.cancelLog, fsOps := w.fsOps ++ gc.snd.snd.fst })

/-- `AwesomeAgent.run` (src/unnamed/part_004 lines 37-90): the prelude above,
then the agent loop, then — on normal return — save the session, mark the
run `completed` and return it; a thrown loop error instead marks the record
`error` and re-throws (the session mutations made before the failure
remain); either way the `finally` clause removes the run from the live-run
index. -/
def runAgent (cfg : AgentConfig) (reg : ToolRegistry) (backend : ModelBackend)
    (cancelAt : Option Nat) (w : World) (params : RunParams) :
    World × Except String AgentRun :=
  let dir := cfg.workspace ++ "/sessions"
  let pre := runPrelude cfg w params
  let runId := pre.fst
  match agentLoopGo cfg reg backend runId params.sessionId cancelAt
      maxIterations 1 "" pre.snd with
  | (w2, Except.ok _result) =>
    let sessionNow := (lookupKey params.sessionId w2.store.sessions).getD
      { id := params.sessionId, key := params.sessionId, createdAt := 0,
        updatedAt := 0, messages := [] }
    let sv := saveSession dir w2.store sessionNow w2.time
    let runFinal : AgentRun :=
      { id := runId, sessionId := params.sessionId,
        status := RunStatus.completed,
        startedAt := some (mintRunId w params).snd,
        endedAt := some sv.snd.snd.snd, error := none }
    ({ runs := eraseKey runId w2.runs, store := sv.snd.fst,
       time := sv.snd.snd.snd + 1, modelCalls := w2.modelCalls,
       cancelLog := w2.cancelLog, fsOps := w2.fsOps ++ sv.snd.snd.fst },
     Except.ok runFinal)
  | (w2, Except.error e) =>
    ({ w2 with runs := eraseKey runId w2.runs, time := w2.time + 1 },
     Except.error e)

/-! ### Filesystem tool (src/src/core/tools/exec.ts, second blob) -/

/-- Split a character list at `/`, accumulating the current segment in
reverse; empty segments are dropped. -/
def splitPathGo (cur : List Char) : List Char → List String
  | [] => if cur.isEmpty then [] else [String.mk cur.reverse]
  | c :: rest =>
    if c = '/' then
      (if cur.isEmpty then [] else [String.mk cur.reverse]) ++ splitPathGo [] rest
    else splitPathGo (c :: cur) rest

/-- Split a posix path into its non-empty segments. -/
def splitPath (s : String) : List String :=
  splitPathGo [] s.data

/-- Character-level prefix test. -/
def charsPrefix : List Char → List Char → Bool
  | [], _ => true
  | _ :: _, [] => false
  | a :: as, b :: bs => a = b && charsPrefix as bs

/-- JS `String.prototype.startsWith`: `strStartsWith s pre` is true when `s`
begins with `pre`. -/
def strStartsWith (s pre : String) : Bool :=
  charsPrefix pre.data s.data

/-- Normalize path segments: drop `.`, let `..` pop the previous segment
(`..` at the root stays at the root, as posix `path.resolve` does). -/
def normSegs (segs : List String) : List String :=
  segs.foldl
    (fun acc seg =>
      if seg = "." then acc
      else if seg = ".." then acc.dropLast
      else acc ++ [seg])
    []

/-- Render normalized segments as an absolute path. -/
def renderAbs (segs : List String) : String :=
  "/" ++ String.intercalate "/" segs

/-- Node `path.resolve(p)` for an absolute `p` (the repository resolves a
relative workspace root against the process cwd; the claims instantiate
absolute roots, for which this is exact). -/
def pathResolve1 (p : String) : String :=
  renderAbs (normSegs (splitPath p))

/-- Node `path.resolve(base, input)` with `base` absolute: an absolute
`input` wins, otherwise `input` is resolved below `base`. -/
def pathResolve (base input : String) : String :=
  if strStartsWith input "/" = true then pathResolve1 input
  else renderAbs (normSegs (splitPath base ++ splitPath input))

/-- `FileSystemTool.resolveSafePath` (src/src/core/tools/exec.ts lines
240-249): resolve the input against the workspace root and reject when the
resolved string does not start with the resolved workspace root. -/
def resolveSafePath (workspaceRoot inputPath : String) : Except String String :=
  let resolved := pathResolve workspaceRoot inputPath
  let workspaceResolved := pathResolve1 workspaceRoot
  if ¬ strStartsWith resolved workspaceResolved = true then
    Except.error "Path traversal detected"
  else
    Except.ok resolved

/-- The parameter names of `FileSystemTool.parameters`. -/
def fileSystemParameters : List String := ["action", "path", "content", "recursive"]

/-- `BaseTool.validateArgs` (src/src/core/tools/base.ts lines 25-32): throw
on the first declared parameter missing from the argument map. -/
def validateArgs (params : List String) (args : List (String × String)) :
    Except String Unit :=
  match params.find? (fun k => (lookupKey k args).isNone) with
  | some k => Except.error ("Missing required parameter: " ++ k)
  | none => Except.ok ()

/-- The first filesystem operation `FileSystemTool.execute` performs, on the
safe-resolved path. -/
inductive FsAction where
  | read (path : String)
  | write (path content : String)
  | list (path : String)
  | delete (path : String)
deriving DecidableEq, Repr

/-- `FileSystemTool.execute` (src/src/core/tools/exec.ts lines 170-235):
validate the arguments, resolve the safe path (outside the `try`, so a
traversal rejection propagates unwrapped), then dispatch on the action; the
`catch` around the switch prepends `File system error: ` to anything thrown
inside it (missing write content, unknown action).  The returned `FsAction`
is the filesystem operation the source then performs. -/
def fileSystemExecute (workspaceRoot : String) (args : List (String × String)) :
    Except String FsAction :=
  match validateArgs fileSystemParameters args with
  | Except.error e => Except.error e
  | Except.ok _ =>
    let action := (lookupKey "action" args).getD ""
    let path := (lookupKey "path" args).getD ""
    match resolveSafePath workspaceRoot path with
    | Except.error e => Except.error e
    | Except.ok safePath =>
      let inner : Except String FsAction :=
        if action = "read" then Except.ok (FsAction.read safePath)
        else if action = "write" then
          match lookupKey "content" args with
          | none => Except.error "Content required for write"
          | some "" => Except.error "Content required for write"
          | some c => Except.ok (FsAction.write safePath c)
        else if action = "list" then Except.ok (FsAction.list safePath)
        else if action = "delete" then Except.ok (FsAction.delete safePath)
        else Except.error ("Unknown action: " ++ action)
      match inner with
      | Except.ok a => Except.ok a
      | Except.error e => Except.error ("File system error: " ++ e)

/-- A path lies inside the workspace directory: it is the root itself or
sits strictly below it.  This is the claim's notion of not escaping the
workspace (a sibling directory sharing the root as a string prefix, such as
`/ws-evil` next to `/ws`, is outside). -/
def withinWorkspace (root p : String) : Bool :=
  p == root || strStartsWith p (root ++ "/")

/-! ### Concurrent runs on one session (claim C3)

`AwesomeAgent` keys nothing on the session id: `activeRuns` is keyed by run
id and there is no queue or lock, so two concurrent `run` calls for the same
session interleave at their `await` points (src/unnamed/part_004: the awaits
at `getOrCreate` line 58, `generate` line 108 and `save` line 71 delimit the
synchronous segments that push the user message, line 61, push the final
assistant message, line 157, and persist, line 71).  The model below is that
segment decomposition for a text-only run: each action is one synchronous
segment's mutation of the shared session, and the JS event loop can realize
exactly the order-preserving merges of the two runs' action lists. -/

/-- A transcript entry, tagged by the run that appended it. -/
inductive SEntry where
  | userMsg (rid : Nat)
  | assistantMsg (rid : Nat)
deriving DecidableEq, Repr

/-- One synchronous segment's mutation of the shared session. -/
inductive SAction where
  | pushUser (rid : Nat)
  | pushAssistant (rid : Nat)
  | persist (rid : Nat)
deriving DecidableEq, Repr

/-- Shared state: the cached in-memory transcript and its persisted copy. -/
structure SState where
  mem : List SEntry
  disk : List SEntry
deriving DecidableEq, Repr

/-- Effect of one segment. -/
def sStep (st : SState) : SAction → SState
  | SAction.pushUser rid => { st with mem := st.mem ++ [SEntry.userMsg rid] }
  | SAction.pushAssistant rid => { st with mem := st.mem ++ [SEntry.assistantMsg rid] }
  | SAction.persist _ => { st with disk := st.mem }

/-- Execute a schedule of segments. -/
def sExec (acts : List SAction) (st : SState) : SState :=
  acts.foldl sStep st

/-- The segments of one text-only run, in program order. -/
def runScript (rid : Nat) : List SAction :=
  [SAction.pushUser rid, SAction.pushAssistant rid, SAction.persist rid]

/-- `isMerge xs ys m`: `m` interleaves `xs` and `ys` preserving both orders —
the schedules the event loop can realize. -/
def isMerge [DecidableEq α] : List α → List α → List α → Bool
  | [], ys, m => ys = m
  | x :: xs, [], m => x :: xs = m
  | _ :: _, _ :: _, [] => False
  | x :: xs, y :: ys, z :: m =>
    (z = x && isMerge xs (y :: ys) m) || (z = y && isMerge (x :: xs) ys m)

/-! ### Helper notions for the theorems -/

/-- The transcript of a session id as held by the store's cache. -/
def msgsS (store : Store) (sid : String) : List Message :=
  match lookupKey sid store.sessions with
  | some s => s.messages
  | none => []

/-- The tool messages pushed for a result list starting at clock `t`
(one push per entry, the clock ticking between pushes). -/
def mkToolMessages (entries : List ExecEntry) (t : Nat) : List Message :=
  match entries with
  | [] => []
  | e :: rest => mkToolMessage e t :: mkToolMessages rest (t + 1)

/-- A backend that requests at least one tool call on every turn. -/
def alwaysRequestsTools (backend : ModelBackend) : Prop :=
  ∀ i ctx, ∃ resp c cs,
    backend i ctx = Except.ok resp ∧ resp.toolCalls = some (c :: cs)

/-- A dispatch of `call` through the registry fails: the tool is absent or
disabled, or its execution errors. -/
def dispatchFails (reg : ToolRegistry) (call : ToolCall) : Prop :=
  reg.get call.name = none ∨
  ∃ tool e, reg.get call.name = some tool ∧
    tool.execute call.id call.arguments = Except.error e

/-- Erase the allow/deny policy lists of a config entry. -/
def stripPolicyLists (p : String × ToolConfig) : String × ToolConfig :=
  (p.fst, { p.snd with allowlist := none, denylist := none })

/-- Modelled from the spec: `save` "must be atomic from an external reader's
point of view — ... e.g., write to a temporary location and atomically
rename".  The write trace never writes the final path directly and installs
the content by renaming something onto the final path. -/
def specAtomicReplace (finalPath : String) (ops : List FsOp) : Prop :=
  (∀ op ∈ ops, match op with
    | FsOp.writeFile p _ => p ≠ finalPath
    | FsOp.rename _ _ => True) ∧
  (∃ src, FsOp.rename src finalPath ∈ ops)

/-- Well-formed session cache: every cached session sits under its own id. -/
def WFSessions (l : List (String × Session)) : Prop :=
  ∀ k s, lookupKey k l = some s → s.id = k

/-- Well-formed store: every cached session sits under its own id and every
durable session sits under the path derived from its own id.  Every store
reachable from an empty one satisfies this (`getOrCreate` caches under the
session's id and `save` writes under the session's path). -/
def WFStore (dir : String) (store : Store) : Prop :=
  WFSessions store.sessions ∧
  (∀ id s, lookupKey (sessionPath dir id) store.disk = some s → s.id = id)

/-! ### Concrete fixtures used by counterexamples and witnesses -/

/-- A concrete agent configuration. -/
def cfg0 : AgentConfig :=
  { model := { provider := "openai", model := "gpt-4" }, workspace := "/ws" }

/-- A tool that always succeeds. -/
def okTool : AgentTool :=
  { name := "t", description := "test tool", execute := fun _ _ => Except.ok "ran" }

/-- A registry holding `okTool` with no configs. -/
def reg0 : ToolRegistry := { tools := [("t", okTool)], configs := [] }

/-- A reply requesting one tool call. -/
def toolResp : GenerateResult :=
  { text := "", toolCalls := some [{ id := "c1", name := "t", arguments := [] }] }

/-- A backend that requests a tool call on every turn. -/
def alwaysToolBackend : ModelBackend := fun _ _ => Except.ok toolResp

/-- A backend that requests a tool call on the first turn and answers with
plain text on every later turn. -/
def twoTurnBackend : ModelBackend := fun i _ =>
  if i = 1 then Except.ok toolResp
  else Except.ok { text := "Done", toolCalls := none }

/-- The empty world. -/
def w0 : World :=
  { runs := [], store := { sessions := [], disk := [] }, time := 0,
    modelCalls := 0, cancelLog := [], fsOps := [] }

/-- Concrete run parameters with a caller-supplied run id. -/
def params0 : RunParams :=
  { sessionId := "main", message := "list files", runId := some "r1" }

/-- A backend that always answers with plain text. -/
def textBackend : ModelBackend := fun _ _ =>
  Except.ok { text := "Done", toolCalls := none }

/-- A backend whose every call fails. -/
def errBackend : ModelBackend := fun _ _ => Except.error "boom"

/-- An empty session with id `main`. -/
def sess0 : Session :=
  { id := "main", key := "main", createdAt := 0, updatedAt := 0, messages := [] }

/-- A world whose store caches `sess0`. -/
def wSess : World :=
  { runs := [], store := { sessions := [("main", sess0)], disk := [] },
    time := 0, modelCalls := 0, cancelLog := [], fsOps := [] }

/-- A concrete tool call addressing `okTool`. -/
def call0 : ToolCall := { id := "c1", name := "t", arguments := [] }

/-- The dispatch entry `executeTools` produces for `call0` against `reg0`. -/
def entry0 : ExecEntry :=
  { callId := "c1", name := "t", result := some "ran", error := none }

/-- A config deny-listing the tool `t` (no allowlist, not disabled). -/
def denyConfigs : List (String × ToolConfig) :=
  [("t", { name := "t", enabled := none, allowlist := none,
           denylist := some ["t"] })]

/-- `okTool` registered together with the deny-listing config. -/
def regDeny : ToolRegistry := { tools := [("t", okTool)], configs := denyConfigs }

/-- A live-run index holding one run in status `running`. -/
def runsRunning : List (String × AgentRun) :=
  [("r1", { id := "r1", sessionId := "main", status := RunStatus.running,
            startedAt := some 0 })]

/-- A tracked, not-yet-terminal run still in status `pending`. -/
def runPending : AgentRun :=
  { id := "r1", sessionId := "main", status := RunStatus.pending,
    startedAt := some 0 }

/-- A live-run index holding only `runPending`. -/
def runsPending : List (String × AgentRun) := [("r1", runPending)]

/-- A schedule interleaving two concurrent runs on one session: run 2's user
message lands while run 1 is mid-turn and before run 1 persists. -/
def badSchedule : List SAction :=
  [SAction.pushUser 1, SAction.pushUser 2, SAction.pushAssistant 1,
   SAction.pushAssistant 2, SAction.persist 1, SAction.persist 2]

/-- A config whose allow-list is configured but does not match tool `t`. -/
def allowNoMatchConfigs : List (String × ToolConfig) :=
  [("t", { name := "t", enabled := none, allowlist := some ["other"],
           denylist := none })]

/-- Arguments for a filesystem read whose path escapes into a sibling
directory that shares the workspace root as a string prefix. -/
def evilArgs : List (String × String) :=
  [("action", "read"), ("path", "../ws-evil/secret"), ("content", "x"),
   ("recursive", "false")]

/-! ### Association-list lemmas -/

theorem lookupKey_setKey_self (k : String) (v : α) (l : List (String × α)) :
    lookupKey k (setKey k v l) = some v := by
  simp [setKey, lookupKey]

theorem lookupKey_eraseKey_self (k : String) (l : List (String × α)) :
    lookupKey k (eraseKey k l) = none := by
  induction l with
  | nil => rfl
  | cons p rest ih =>
    by_cases hp : p.fst = k
    · simpa [eraseKey, hp] using ih
    · simpa [eraseKey, lookupKey, hp] using ih

theorem lookupKey_eraseKey_ne (k k' : String) (l : List (String × α))
    (h : k' ≠ k) : lookupKey k' (eraseKey k l) = lookupKey k' l := by
  induction l with
  | nil => rfl
  | cons p rest ih =>
    by_cases hp : p.fst = k
    · have hne : ¬ p.fst = k' := by
        intro hc
        exact h (hc ▸ hp)
      have hkk : ¬ k = k' := fun hc => h hc.symm
      simp only [eraseKey, hp, if_true, lookupKey, hne, if_false, hkk]
      rw [ih]
    · simp only [eraseKey, hp, if_false, lookupKey]
      rw [ih]

theorem lookupKey_setKey_ne (k k' : String) (v : α) (l : List (String × α))
    (h : k' ≠ k) : lookupKey k' (setKey k v l) = lookupKey k' l := by
  have hk : ¬ k = k' := fun hc => h hc.symm
  simp only [setKey, lookupKey, hk, if_false]
  exact lookupKey_eraseKey_ne k k' l h

theorem eraseKey_idem (k : String) (l : List (String × α)) :
    eraseKey k (eraseKey k l) = eraseKey k l := by
  induction l with
  | nil => rfl
  | cons p rest ih =>
    by_cases hp : p.fst = k
    · simpa [eraseKey, hp] using ih
    · simp [eraseKey, hp] at ih ⊢
      simpa [eraseKey, hp] using ih

/-! ### Frame and transcript lemmas for the state operations -/

theorem pushMessage_none (store : Store) (sid : String) (m : Message)
    (h : lookupKey sid store.sessions = none) :
    pushMessage store sid m = store := by
  simp [pushMessage, h]

theorem pushMessage_some (store : Store) (sid : String) (m : Message)
    (s : Session) (h : lookupKey sid store.sessions = some s) :
    pushMessage store sid m =
      { store with
        sessions := setKey sid { s with messages := s.messages ++ [m] }
          store.sessions } := by
  simp [pushMessage, h]

theorem msgsS_pushMessage_some (store : Store) (sid : String) (m : Message)
    (s : Session) (h : lookupKey sid store.sessions = some s) :
    msgsS (pushMessage store sid m) sid = s.messages ++ [m] := by
  simp [pushMessage_some store sid m s h, msgsS, lookupKey_setKey_self]

theorem lookup_pushMessage_some (store : Store) (sid : String) (m : Message)
    (s : Session) (h : lookupKey sid store.sessions = some s) :
    lookupKey sid (pushMessage store sid m).sessions =
      some { s with messages := s.messages ++ [m] } := by
  simp [pushMessage_some store sid m s h, lookupKey_setKey_self]

theorem msgsS_pushMessage_of_some (store : Store) (sid : String) (m : Message)
    (s : Session) (h : lookupKey sid store.sessions = some s) :
    msgsS (pushMessage store sid m) sid = msgsS store sid ++ [m] := by
  rw [msgsS_pushMessage_some store sid m s h]
  simp [msgsS, h]

theorem msgsS_pushMessage_isPrefix (store : Store) (sid : String) (m : Message)
    (sid' : String) :
    msgsS store sid' <+: msgsS (pushMessage store sid m) sid' := by
  cases h : lookupKey sid store.sessions with
  | none => rw [pushMessage_none store sid m h]
  | some s =>
    by_cases hs : sid' = sid
    · subst hs
      rw [msgsS_pushMessage_of_some store sid' m s h]
      exact ⟨[m], rfl⟩
    · have : msgsS (pushMessage store sid m) sid' = msgsS store sid' := by
        simp [pushMessage_some store sid m s h, msgsS,
          lookupKey_setKey_ne sid sid' _ _ hs]
      rw [this]

theorem pushToolMessages_frame (sid : String) :
    ∀ (es : List ExecEntry) (w : World),
      (pushToolMessages sid es w).runs = w.runs ∧
      (pushToolMessages sid es w).cancelLog = w.cancelLog ∧
      (pushToolMessages sid es w).modelCalls = w.modelCalls ∧
      (pushToolMessages sid es w).fsOps = w.fsOps
  | [], _ => ⟨rfl, rfl, rfl, rfl⟩
  | e :: rest, w => by
    simpa [pushToolMessages] using pushToolMessages_frame sid rest _

theorem pushToolMessages_store_time (sid : String) :
    ∀ (es : List ExecEntry) (w1 w2 : World),
      w1.store = w2.store → w1.time = w2.time →
      (pushToolMessages sid es w1).store = (pushToolMessages sid es w2).store ∧
      (pushToolMessages sid es w1).time = (pushToolMessages sid es w2).time
  | [], _, _, hs, ht => ⟨hs, ht⟩
  | e :: rest, w1, w2, hs, ht => by
    simp only [pushToolMessages]
    exact pushToolMessages_store_time sid rest _ _ (by rw [hs, ht]) (by rw [ht])

theorem pushToolMessages_msgs (sid : String) :
    ∀ (es : List ExecEntry) (w : World) (s : Session),
      lookupKey sid w.store.sessions = some s →
      msgsS (pushToolMessages sid es w).store sid =
        s.messages ++ mkToolMessages es w.time
  | [], w, s, h => by simp [pushToolMessages, mkToolMessages, msgsS, h]
  | e :: rest, w, s, h => by
    have hlook := lookup_pushMessage_some w.store sid (mkToolMessage e w.time) s h
    have ih := pushToolMessages_msgs sid rest
      { w with store := pushMessage w.store sid (mkToolMessage e w.time),
               time := w.time + 1 }
      { s with messages := s.messages ++ [mkToolMessage e w.time] } hlook
    simp only [pushToolMessages]
    rw [ih]
    simp [mkToolMessages]

theorem pushToolMessages_msgs_isPrefix (sid : String) :
    ∀ (es : List ExecEntry) (w : World) (sid' : String),
      msgsS w.store sid' <+: msgsS (pushToolMessages sid es w).store sid'
  | [], w, sid' => by simp [pushToolMessages]
  | e :: rest, w, sid' => by
    simp only [pushToolMessages]
    exact (msgsS_pushMessage_isPrefix w.store sid (mkToolMessage e w.time) sid').trans
      (pushToolMessages_msgs_isPrefix sid rest
        { w with store := pushMessage w.store sid (mkToolMessage e w.time),
                 time := w.time + 1 } sid')

theorem applyCancel_frame (rid : String) (w : World) :
    (applyCancel rid w).store = w.store ∧
    (applyCancel rid w).time = w.time ∧
    (applyCancel rid w).modelCalls = w.modelCalls ∧
    (applyCancel rid w).fsOps = w.fsOps := by
  simp [applyCancel]

theorem cancel_fst_cases (runs : List (String × AgentRun)) (rid : String) :
    (cancel runs rid).fst = runs ∨ (cancel runs rid).fst = eraseKey rid runs := by
  unfold cancel
  cases lookupKey rid runs with
  | none => exact Or.inl rfl
  | some run =>
    by_cases h : run.status = RunStatus.running
    · simp [h]
    · simp [h]

theorem eraseKey_applyCancel (rid : String) (w : World) :
    eraseKey rid (applyCancel rid w).runs = eraseKey rid w.runs := by
  have h := cancel_fst_cases w.runs rid
  unfold applyCancel
  rcases h with h | h
  · simp [h]
  · simp [h, eraseKey_idem]

theorem pushToolMessages_runs (sid : String) (es : List ExecEntry) (w : World) :
    (pushToolMessages sid es w).runs = w.runs :=
  (pushToolMessages_frame sid es w).1

theorem pushToolMessages_cancelLog (sid : String) (es : List ExecEntry) (w : World) :
    (pushToolMessages sid es w).cancelLog = w.cancelLog :=
  (pushToolMessages_frame sid es w).2.1

theorem pushToolMessages_modelCalls (sid : String) (es : List ExecEntry) (w : World) :
    (pushToolMessages sid es w).modelCalls = w.modelCalls :=
  (pushToolMessages_frame sid es w).2.2.1

theorem pushToolMessages_fsOps (sid : String) (es : List ExecEntry) (w : World) :
    (pushToolMessages sid es w).fsOps = w.fsOps :=
  (pushToolMessages_frame sid es w).2.2.2

theorem applyCancel_store (rid : String) (w : World) :
    (applyCancel rid w).store = w.store :=
  (applyCancel_frame rid w).1

theorem applyCancel_time (rid : String) (w : World) :
    (applyCancel rid w).time = w.time :=
  (applyCancel_frame rid w).2.1

theorem applyCancel_modelCalls (rid : String) (w : World) :
    (applyCancel rid w).modelCalls = w.modelCalls :=
  (applyCancel_frame rid w).2.2.1

theorem applyCancel_fsOps (rid : String) (w : World) :
    (applyCancel rid w).fsOps = w.fsOps :=
  (applyCancel_frame rid w).2.2.2

/-! ### Loop-level lemmas -/

theorem agentLoopGo_msgs_isPrefix (cfg : AgentConfig) (reg : ToolRegistry)
    (backend : ModelBackend) (rid sid : String) (cAt : Option Nat) :
    ∀ (fuel iter : Nat) (ar : String) (w : World) (sid' : String),
      msgsS w.store sid' <+:
        msgsS (agentLoopGo cfg reg backend rid sid cAt fuel iter ar w).fst.store sid'
  | 0, _, _, w, sid' => by simp [agentLoopGo]
  | fuel + 1, iter, ar, w, sid' => by
    simp only [agentLoopGo]
    split
    · simp
    · split
      · refine List.IsPrefix.trans ?_
          (agentLoopGo_msgs_isPrefix cfg reg backend rid sid cAt fuel (iter + 1) _ _ sid')
        split
        · rw [(applyCancel_frame rid _).1]
          refine List.IsPrefix.trans ?_ (pushToolMessages_msgs_isPrefix sid _ _ sid')
          exact msgsS_pushMessage_isPrefix w.store sid _ sid'
        · refine List.IsPrefix.trans ?_ (pushToolMessages_msgs_isPrefix sid _ _ sid')
          exact msgsS_pushMessage_isPrefix w.store sid _ sid'
      · exact msgsS_pushMessage_isPrefix w.store sid _ sid'

theorem agentLoopGo_error_from_backend (cfg : AgentConfig) (reg : ToolRegistry)
    (backend : ModelBackend) (rid sid : String) (cAt : Option Nat) :
    ∀ (fuel iter : Nat) (ar : String) (w : World) (e : String),
      (agentLoopGo cfg reg backend rid sid cAt fuel iter ar w).snd = Except.error e →
      ∃ i ctx, backend i ctx = Except.error e
  | 0, _, _, _, _ => by simp [agentLoopGo]
  | fuel + 1, iter, ar, w, e => by
    simp only [agentLoopGo]
    split
    · rename_i e' heq
      intro h
      simp at h
      subst h
      exact ⟨iter, _, heq⟩
    · split
      · exact agentLoopGo_error_from_backend cfg reg backend rid sid cAt fuel (iter + 1) _ _ e
      · simp

theorem agentLoopGo_alwaysTools (cfg : AgentConfig) (reg : ToolRegistry)
    (backend : ModelBackend) (rid sid : String) (cAt : Option Nat)
    (hB : alwaysRequestsTools backend) :
    ∀ (fuel iter : Nat) (ar : String) (w : World),
      (∃ ar2, (agentLoopGo cfg reg backend rid sid cAt fuel iter ar w).snd =
        Except.ok ar2) ∧
      (agentLoopGo cfg reg backend rid sid cAt fuel iter ar w).fst.modelCalls =
        w.modelCalls + fuel
  | 0, _, ar, w => ⟨⟨ar, by simp [agentLoopGo]⟩, by simp [agentLoopGo]⟩
  | fuel + 1, iter, ar, w => by
    obtain ⟨resp, c, cs, hb, htc⟩ := hB iter
      (buildContext cfg reg
        ((lookupKey sid w.store.sessions).getD
          { id := sid, key := sid, createdAt := 0, updatedAt := 0,
            messages := [] })
        w.time).fst
    simp only [agentLoopGo, hb, htc]
    constructor
    · exact (agentLoopGo_alwaysTools cfg reg backend rid sid cAt hB fuel
        (iter + 1) _ _).1
    · rw [(agentLoopGo_alwaysTools cfg reg backend rid sid cAt hB fuel
        (iter + 1) _ _).2]
      by_cases hct : cAt = some iter
      · simp only [hct, if_true, applyCancel_modelCalls, pushToolMessages_modelCalls]
        omega
      · simp only [hct, if_false, pushToolMessages_modelCalls]
        omega

theorem agentLoopGo_cancelAt_irrelevant (cfg : AgentConfig) (reg : ToolRegistry)
    (backend : ModelBackend) (rid sid : String) :
    ∀ (fuel iter : Nat) (ar : String) (cAt1 cAt2 : Option Nat) (w1 w2 : World),
      w1.store = w2.store → w1.time = w2.time → w1.modelCalls = w2.modelCalls →
      w1.fsOps = w2.fsOps →
      (agentLoopGo cfg reg backend rid sid cAt1 fuel iter ar w1).fst.store =
        (agentLoopGo cfg reg backend rid sid cAt2 fuel iter ar w2).fst.store ∧
      (agentLoopGo cfg reg backend rid sid cAt1 fuel iter ar w1).fst.time =
        (agentLoopGo cfg reg backend rid sid cAt2 fuel iter ar w2).fst.time ∧
      (agentLoopGo cfg reg backend rid sid cAt1 fuel iter ar w1).fst.modelCalls =
        (agentLoopGo cfg reg backend rid sid cAt2 fuel iter ar w2).fst.modelCalls ∧
      (agentLoopGo cfg reg backend rid sid cAt1 fuel iter ar w1).fst.fsOps =
        (agentLoopGo cfg reg backend rid sid cAt2 fuel iter ar w2).fst.fsOps ∧
      (agentLoopGo cfg reg backend rid sid cAt1 fuel iter ar w1).snd =
        (agentLoopGo cfg reg backend rid sid cAt2 fuel iter ar w2).snd
  | 0, _, _, _, _, w1, w2, hs, ht, hmc, hops => by
    simp [agentLoopGo, hs, ht, hmc, hops]
  | fuel + 1, iter, ar, cAt1, cAt2, w1, w2, hs, ht, hmc, hops => by
    simp only [agentLoopGo]
    rw [hs, ht, hmc, hops]
    cases hb : backend iter (buildContext cfg reg
        ((lookupKey sid w2.store.sessions).getD
          { id := sid, key := sid, createdAt := 0, updatedAt := 0,
            messages := [] })
        w2.time).fst with
    | error e => simp
    | ok resp =>
      dsimp only
      cases htc : resp.toolCalls with
      | none => simp
      | some l =>
        cases l with
        | nil => simp
        | cons c cs =>
          dsimp only
          refine agentLoopGo_cancelAt_irrelevant cfg reg backend rid sid fuel
            (iter + 1) _ cAt1 cAt2 _ _ ?_ ?_ ?_ ?_
          · by_cases h1 : cAt1 = some iter <;> by_cases h2 : cAt2 = some iter <;>
              simp only [h1, h2, if_true, if_false, ite_true, ite_false,
                applyCancel_store] <;>
              (refine (pushToolMessages_store_time sid _ _ _ ?_ ?_).1 <;> rfl)
          · by_cases h1 : cAt1 = some iter <;> by_cases h2 : cAt2 = some iter <;>
              simp only [h1, h2, if_true, if_false, ite_true, ite_false,
                applyCancel_time] <;>
              (refine (pushToolMessages_store_time sid _ _ _ ?_ ?_).2 <;> rfl)
          · by_cases h1 : cAt1 = some iter <;> by_cases h2 : cAt2 = some iter <;>
              simp [h1, h2, applyCancel_modelCalls, pushToolMessages_modelCalls]
          · by_cases h1 : cAt1 = some iter <;> by_cases h2 : cAt2 = some iter <;>
              simp [h1, h2, applyCancel_fsOps, pushToolMessages_fsOps]

theorem agentLoopGo_runs_eraseKey (cfg : AgentConfig) (reg : ToolRegistry)
    (backend : ModelBackend) (rid sid : String) (cAt : Option Nat) :
    ∀ (fuel iter : Nat) (ar : String) (w : World),
      eraseKey rid (agentLoopGo cfg reg backend rid sid cAt fuel iter ar w).fst.runs =
        eraseKey rid w.runs
  | 0, _, _, w => by simp [agentLoopGo]
  | fuel + 1, iter, ar, w => by
    simp only [agentLoopGo]
    split
    · simp
    · split
      · rw [agentLoopGo_runs_eraseKey cfg reg backend rid sid cAt fuel (iter + 1) _ _]
        split
        · rw [eraseKey_applyCancel, pushToolMessages_runs]
        · rw [pushToolMessages_runs]
      · simp

/-! ### Session-store lemmas -/

theorem lookupKey_setKey_cases (k k' : String) (v : α) (l : List (String × α)) :
    lookupKey k' (setKey k v l) =
      if k' = k then some v else lookupKey k' l := by
  by_cases h : k' = k
  · subst h
    simp [lookupKey_setKey_self]
  · simp [h, lookupKey_setKey_ne k k' v l h]

theorem WFSessions_setKey {l : List (String × Session)} {k : String} {v : Session}
    (hv : v.id = k) (hl : WFSessions l) : WFSessions (setKey k v l) := by
  intro k' s hs
  rw [lookupKey_setKey_cases] at hs
  by_cases h : k' = k
  · rw [if_pos h] at hs
    cases hs
    exact h ▸ hv
  · rw [if_neg h] at hs
    exact hl k' s hs

theorem WFSessions_pushMessage (store : Store) (sid : String) (m : Message)
    (hw : WFSessions store.sessions) :
    WFSessions (pushMessage store sid m).sessions := by
  cases h : lookupKey sid store.sessions with
  | none => rw [pushMessage_none store sid m h]; exact hw
  | some s =>
    rw [pushMessage_some store sid m s h]
    exact WFSessions_setKey (hw sid s h) hw

theorem WFSessions_pushToolMessages (sid : String) :
    ∀ (es : List ExecEntry) (w : World),
      WFSessions w.store.sessions →
      WFSessions (pushToolMessages sid es w).store.sessions
  | [], _, hw => hw
  | e :: rest, w, hw => by
    simp only [pushToolMessages]
    exact WFSessions_pushToolMessages sid rest _
      (WFSessions_pushMessage w.store sid (mkToolMessage e w.time) hw)

theorem WFSessions_agentLoopGo (cfg : AgentConfig) (reg : ToolRegistry)
    (backend : ModelBackend) (rid sid : String) (cAt : Option Nat) :
    ∀ (fuel iter : Nat) (ar : String) (w : World),
      WFSessions w.store.sessions →
      WFSessions (agentLoopGo cfg reg backend rid sid cAt fuel iter ar w).fst.store.sessions
  | 0, _, _, _, hw => by simpa [agentLoopGo] using hw
  | fuel + 1, iter, ar, w, hw => by
    simp only [agentLoopGo]
    split
    · simpa using hw
    · split
      · refine WFSessions_agentLoopGo cfg reg backend rid sid cAt fuel (iter + 1) _ _ ?_
        split
        · rw [applyCancel_store]
          exact WFSessions_pushToolMessages sid _ _
            (WFSessions_pushMessage w.store sid _ hw)
        · exact WFSessions_pushToolMessages sid _ _
            (WFSessions_pushMessage w.store sid _ hw)
      · exact WFSessions_pushMessage w.store sid _ hw

theorem getOrCreate_WFSessions (dir : String) (store : Store) (sid : String)
    (t : Nat) (hw : WFStore dir store) :
    WFSessions (getOrCreate dir store sid t).snd.fst.sessions := by
  unfold getOrCreate
  cases h : lookupKey sid store.sessions with
  | some s => exact hw.1
  | none =>
    cases hd : lookupKey (sessionPath dir sid) store.disk with
    | some s =>
      exact WFSessions_setKey (hw.2 sid s hd) hw.1
    | none =>
      simp only [saveSession]
      exact WFSessions_setKey rfl (WFSessions_setKey rfl hw.1)

theorem getOrCreate_msgs_isPrefix (dir : String) (store : Store) (sid : String)
    (t : Nat) (sid' : String) :
    msgsS store sid' <+: msgsS (getOrCreate dir store sid t).snd.fst sid' := by
  unfold getOrCreate
  cases h : lookupKey sid store.sessions with
  | some s => exact List.prefix_refl _
  | none =>
    cases hd : lookupKey (sessionPath dir sid) store.disk with
    | some s =>
      by_cases hs : sid' = sid
      · subst hs
        simp [msgsS, h, lookupKey_setKey_self]
      · simp [msgsS, lookupKey_setKey_ne sid sid' _ _ hs]
    | none =>
      by_cases hs : sid' = sid
      · subst hs
        simp [msgsS, h, saveSession, lookupKey_setKey_self]
      · simp [msgsS, saveSession,
          lookupKey_setKey_ne sid sid' _ _ hs]

theorem getOrCreate_lookup_isSome (dir : String) (store : Store) (sid : String)
    (t : Nat) :
    ∃ s, lookupKey sid (getOrCreate dir store sid t).snd.fst.sessions = some s := by
  unfold getOrCreate
  cases h : lookupKey sid store.sessions with
  | some s => exact ⟨s, h⟩
  | none =>
    cases hd : lookupKey (sessionPath dir sid) store.disk with
    | some s => exact ⟨s, by simp [lookupKey_setKey_self]⟩
    | none =>
      exact ⟨{ id := sid, key := sid, createdAt := t, updatedAt := t + 2,
               messages := [] },
             by simp [saveSession, lookupKey_setKey_self]⟩

theorem saveSession_msgs_at_sid (dir : String) (store : Store) (sid : String)
    (t : Nat) :
    msgsS (saveSession dir store
        ((lookupKey sid store.sessions).getD
          { id := sid, key := sid, createdAt := 0, updatedAt := 0,
            messages := [] })
        t).snd.fst sid = msgsS store sid := by
  cases h : lookupKey sid store.sessions with
  | none =>
    simp [saveSession, h, msgsS, lookupKey_setKey_self]
  | some s =>
    by_cases hid : s.id = sid
    · simp [saveSession, h, msgsS, hid, lookupKey_setKey_self]
    · have hne : sid ≠ s.id := fun hc => hid hc.symm
      simp [saveSession, h, msgsS, lookupKey_setKey_ne s.id sid _ _ hne]

theorem saveSession_cached_msgs (dir : String) (store : Store) (sid : String)
    (t : Nat) (sid' : String) (hw : WFSessions store.sessions) :
    msgsS (saveSession dir store
        ((lookupKey sid store.sessions).getD
          { id := sid, key := sid, createdAt := 0, updatedAt := 0,
            messages := [] })
        t).snd.fst sid' = msgsS store sid' := by
  cases h : lookupKey sid store.sessions with
  | none =>
    by_cases hs : sid' = sid
    · subst hs
      simp [saveSession, h, msgsS, lookupKey_setKey_self]
    · simp [saveSession, h, msgsS, lookupKey_setKey_ne sid sid' _ _ hs]
  | some s =>
    have hid : s.id = sid := hw sid s h
    by_cases hs : sid' = sid
    · subst hs
      simp [saveSession, h, msgsS, hid, lookupKey_setKey_self]
    · simp [saveSession, h, msgsS, hid,
        lookupKey_setKey_ne sid sid' _ _ hs]

theorem runPrelude_msgs_isPrefix (cfg : AgentConfig) (w : World)
    (params : RunParams) (sid' : String) :
    msgsS w.store sid' <+: msgsS (runPrelude cfg w params).snd.store sid' := by
  simp only [runPrelude]
  refine List.IsPrefix.trans ?_ (msgsS_pushMessage_isPrefix _ _ _ sid')
  exact getOrCreate_msgs_isPrefix _ _ _ _ sid'

theorem runPrelude_WFSessions (cfg : AgentConfig) (w : World)
    (params : RunParams)
    (hwf : WFStore (cfg.workspace ++ "/sessions") w.store) :
    WFSessions (runPrelude cfg w params).snd.store.sessions := by
  simp only [runPrelude]
  exact WFSessions_pushMessage _ _ _
    (getOrCreate_WFSessions _ _ _ _ hwf)

theorem runPrelude_userMsg (cfg : AgentConfig) (w : World) (params : RunParams) :
    ∃ (n : Nat) (ts : Nat),
      (msgsS (runPrelude cfg w params).snd.store params.sessionId)[n]? =
        some { role := Role.user, content := params.message, toolCalls := none,
               toolResults := none, timestamp := ts } := by
  simp only [runPrelude]
  obtain ⟨s, hs⟩ := getOrCreate_lookup_isSome (cfg.workspace ++ "/sessions")
    w.store params.sessionId ((mintRunId w params).snd + 1)
  refine ⟨s.messages.length,
    (getOrCreate (cfg.workspace ++ "/sessions") w.store params.sessionId
      ((mintRunId w params).snd + 1)).snd.snd.snd, ?_⟩
  rw [msgsS_pushMessage_some _ _ _ s hs]
  exact List.getElem?_concat_length s.messages _

/-- C9: the run controller only ever appends to a session transcript — for
every well-formed starting store, every session id and every run (any
backend behaviour, any cancellation schedule), the prior transcript is a
prefix of the transcript after `run` returns; in particular no entry is
removed, reordered, or altered in place. -/
theorem c9_transcript_append_only (cfg : AgentConfig) (reg : ToolRegistry)
    (backend : ModelBackend) (cAt : Option Nat) (w : World)
    (params : RunParams) (sid' : String)
    (hwf : WFStore (cfg.workspace ++ "/sessions") w.store) :
    msgsS w.store sid' <+:
      msgsS (runAgent cfg reg backend cAt w params).fst.store sid' := by
  have hl := agentLoopGo_msgs_isPrefix cfg reg backend
    (runPrelude cfg w params).fst params.sessionId cAt maxIterations 1 ""
    (runPrelude cfg w params).snd sid'
  have hwl := WFSessions_agentLoopGo cfg reg backend
    (runPrelude cfg w params).fst params.sessionId cAt maxIterations 1 ""
    (runPrelude cfg w params).snd
    (runPrelude_WFSessions cfg w params hwf)
  have hpre := (runPrelude_msgs_isPrefix cfg w params sid').trans hl
  simp only [runAgent]
  split
  · rename_i w2 _result heq
    rw [heq] at hpre hwl
    rw [saveSession_cached_msgs (cfg.workspace ++ "/sessions") w2.store
      params.sessionId w2.time sid' hwl]
    exact hpre
  · rename_i w2 e heq
    rw [heq] at hpre
    exact hpre

/-- C9 witness: the empty store is well-formed and a concrete run only
appends to the `main` transcript. -/
theorem c9_transcript_append_only_witness :
    WFStore (cfg0.workspace ++ "/sessions") w0.store ∧
    msgsS w0.store "main" <+:
      msgsS (runAgent cfg0 reg0 textBackend none w0 params0).fst.store "main" := by
  have hwf : WFStore (cfg0.workspace ++ "/sessions") w0.store := by
    constructor
    · intro k s h
      simp [w0, lookupKey] at h
    · intro id s h
      simp [w0, lookupKey] at h
  exact ⟨hwf, c9_transcript_append_only cfg0 reg0 textBackend none w0 params0
    "main" hwf⟩

/-- C1 (amended): when the model backend returns tool calls on every turn,
the loop runs exactly its `maxIterations` (10) model calls and then simply
exits, and `run` reports the run as `completed` with no error — there is no
`IterationLimitExceeded` error path in the code. -/
theorem c1_iteration_cap_completes (cfg : AgentConfig) (reg : ToolRegistry)
    (backend : ModelBackend) (cAt : Option Nat) (w : World) (params : RunParams)
    (hB : alwaysRequestsTools backend) :
    ∃ run1, (runAgent cfg reg backend cAt w params).snd = Except.ok run1 ∧
      run1.status = RunStatus.completed ∧ run1.error = none ∧
      (runAgent cfg reg backend cAt w params).fst.modelCalls =
        w.modelCalls + maxIterations := by
  obtain ⟨⟨ar2, hok⟩, hmc⟩ := agentLoopGo_alwaysTools cfg reg backend
    (runPrelude cfg w params).fst params.sessionId cAt hB maxIterations 1 ""
    (runPrelude cfg w params).snd
  simp only [runAgent]
  split
  · rename_i w2 _result heq
    refine ⟨_, rfl, rfl, rfl, ?_⟩
    rw [heq] at hmc
    simpa [runPrelude] using hmc
  · rename_i w2 e heq
    rw [heq] at hok
    simp at hok

/-- C1 witness: the always-tools hypothesis holds of a concrete backend, and
the theorem's conclusion follows for it. -/
theorem c1_iteration_cap_completes_witness :
    alwaysRequestsTools alwaysToolBackend ∧
    ∃ run1, (runAgent cfg0 reg0 alwaysToolBackend none w0 params0).snd =
        Except.ok run1 ∧
      run1.status = RunStatus.completed ∧ run1.error = none ∧
      (runAgent cfg0 reg0 alwaysToolBackend none w0 params0).fst.modelCalls =
        w0.modelCalls + maxIterations := by
  have hB : alwaysRequestsTools alwaysToolBackend := fun _ _ =>
    ⟨toolResp, { id := "c1", name := "t", arguments := [] }, [], rfl, rfl⟩
  exact ⟨hB, c1_iteration_cap_completes cfg0 reg0 alwaysToolBackend none w0
    params0 hB⟩

/-- C1 counterexample: a run whose backend requests tools on all ten turns
ends with status `completed` and no error — not with status `error` and
`IterationLimitExceeded` as the claim states. -/
theorem c1_counterexample :
    (runAgent cfg0 reg0 alwaysToolBackend none w0 params0).snd.map
      AgentRun.status = Except.ok RunStatus.completed ∧
    (runAgent cfg0 reg0 alwaysToolBackend none w0 params0).snd.map
      AgentRun.error = Except.ok none ∧
    (runAgent cfg0 reg0 alwaysToolBackend none w0 params0).fst.modelCalls = 10 := by
  refine ⟨?_, ?_, ?_⟩ <;> rfl

/-- C4 (amended): the agent loop never checks cancellation — a `cancel`
applied at the suspension point after any iteration's tool dispatch changes
nothing about the run: the returned terminal record, the final store, the
final live-run index, the clock, the model-call count and the write trace
all equal those of the same run with no cancellation.  (Only the embedding's
log of the `cancel` calls differs.) -/
theorem c4_cancel_has_no_effect (cfg : AgentConfig) (reg : ToolRegistry)
    (backend : ModelBackend) (w : World) (params : RunParams) (k : Nat) :
    (runAgent cfg reg backend (some k) w params).snd =
      (runAgent cfg reg backend none w params).snd ∧
    (runAgent cfg reg backend (some k) w params).fst.store =
      (runAgent cfg reg backend none w params).fst.store ∧
    (runAgent cfg reg backend (some k) w params).fst.runs =
      (runAgent cfg reg backend none w params).fst.runs ∧
    (runAgent cfg reg backend (some k) w params).fst.time =
      (runAgent cfg reg backend none w params).fst.time ∧
    (runAgent cfg reg backend (some k) w params).fst.modelCalls =
      (runAgent cfg reg backend none w params).fst.modelCalls ∧
    (runAgent cfg reg backend (some k) w params).fst.fsOps =
      (runAgent cfg reg backend none w params).fst.fsOps := by
  have H := agentLoopGo_cancelAt_irrelevant cfg reg backend
    (runPrelude cfg w params).fst params.sessionId maxIterations 1 ""
    (some k) none (runPrelude cfg w params).snd (runPrelude cfg w params).snd
    rfl rfl rfl rfl
  have HR1 := agentLoopGo_runs_eraseKey cfg reg backend
    (runPrelude cfg w params).fst params.sessionId (some k) maxIterations 1 ""
    (runPrelude cfg w params).snd
  have HR2 := agentLoopGo_runs_eraseKey cfg reg backend
    (runPrelude cfg w params).fst params.sessionId none maxIterations 1 ""
    (runPrelude cfg w params).snd
  simp only [runAgent]
  rcases h1 : agentLoopGo cfg reg backend (runPrelude cfg w params).fst
      params.sessionId (some k) maxIterations 1 "" (runPrelude cfg w params).snd
    with ⟨wa, ra⟩
  rcases h2 : agentLoopGo cfg reg backend (runPrelude cfg w params).fst
      params.sessionId none maxIterations 1 "" (runPrelude cfg w params).snd
    with ⟨wb, rb⟩
  rw [h1, h2] at H
  rw [h1] at HR1
  rw [h2] at HR2
  obtain ⟨hs, ht, hmc, hops, hres⟩ := H
  simp only at hs ht hmc hops hres
  subst hres
  cases ra with
  | ok val =>
    dsimp only
    rw [hs, ht, hmc, hops]
    exact ⟨rfl, rfl, HR1.trans HR2.symm, rfl, rfl, rfl⟩
  | error e =>
    dsimp only
    rw [hs, ht, hmc, hops]
    exact ⟨rfl, rfl, HR1.trans HR2.symm, rfl, rfl, rfl⟩

/-- C4 counterexample: a run whose backend requests one tool turn and then
answers, with `cancel` applied between the tool dispatch and the next model
call.  The `cancel` call succeeds (returns true), yet the run makes a second
model call and ends with terminal status `completed` — the claim's
"reaches `cancelled` before its next model call and is never overwritten"
is false of the code. -/
theorem c4_counterexample :
    (runAgent cfg0 reg0 twoTurnBackend (some 1) w0 params0).fst.cancelLog =
      [true] ∧
    (runAgent cfg0 reg0 twoTurnBackend (some 1) w0 params0).fst.modelCalls = 2 ∧
    (runAgent cfg0 reg0 twoTurnBackend (some 1) w0 params0).snd.map
      AgentRun.status = Except.ok RunStatus.completed := by
  refine ⟨?_, ?_, ?_⟩ <;> rfl

/-- C5 (amended): `cancel` returns true exactly when the id is tracked with
status precisely `running` (a tracked run still in `pending` yields false);
a successful cancel evicts the id so `getRun` returns absent; a failed
cancel leaves the index unchanged; and after `run` returns — whatever its
terminal state — the caller-supplied run id is absent from the live-run
index. -/
theorem c5_cancel_running_only :
    (∀ (runs : List (String × AgentRun)) (rid : String),
      ((cancel runs rid).snd = true ↔
        ∃ r, lookupKey rid runs = some r ∧ r.status = RunStatus.running) ∧
      ((cancel runs rid).snd = true →
        getRun (cancel runs rid).fst rid = none) ∧
      ((cancel runs rid).snd = false → (cancel runs rid).fst = runs)) ∧
    (∀ (cfg : AgentConfig) (reg : ToolRegistry) (backend : ModelBackend)
      (cAt : Option Nat) (w : World) (params : RunParams) (rid0 : String),
      params.runId = some rid0 →
      getRun (runAgent cfg reg backend cAt w params).fst.runs rid0 = none) := by
  constructor
  · intro runs rid
    unfold cancel
    cases hlook : lookupKey rid runs with
    | none => simp [hlook, getRun]
    | some r =>
      by_cases hst : r.status = RunStatus.running
      · simp [hlook, hst, getRun, lookupKey_eraseKey_self]
      · refine ⟨?_, ?_, ?_⟩
        · constructor
          · intro h
            simp [hst] at h
          · rintro ⟨r', hr', hs'⟩
            simp only [Option.some.injEq] at hr'
            subst hr'
            exact absurd hs' hst
        · intro h
          simp [hst] at h
        · intro _
          simp [hst]
  · intro cfg reg backend cAt w params rid0 hrid
    have hfst : (runPrelude cfg w params).fst = rid0 := by
      simp [runPrelude, mintRunId, hrid]
    simp only [runAgent]
    split
    · rename_i w2 _res heq
      simp only [getRun]
      rw [hfst]
      exact lookupKey_eraseKey_self rid0 _
    · rename_i w2 e heq
      simp only [getRun]
      rw [hfst]
      exact lookupKey_eraseKey_self rid0 _

/-- C5 witness: the characterization applied to a concrete index holding a
running run, and the eviction fact applied to a concrete completed run. -/
theorem c5_cancel_running_only_witness :
    ((cancel runsRunning "r1").snd = true ↔
      ∃ r, lookupKey "r1" runsRunning = some r ∧
        r.status = RunStatus.running) ∧
    getRun (runAgent cfg0 reg0 textBackend none w0 params0).fst.runs "r1" =
      none :=
  ⟨(c5_cancel_running_only.1 runsRunning "r1").1,
   c5_cancel_running_only.2 cfg0 reg0 textBackend none w0 params0 "r1" rfl⟩

/-- C5 counterexample: a tracked run still in status `pending` is not
terminal, yet `cancel` returns false for it — the claim's "true iff active
(tracked and not yet terminal)" fails at this input. -/
theorem c5_counterexample :
    (cancel runsPending "r1").snd = false ∧
    getRun runsPending "r1" = some runPending ∧
    runPending.status ≠ RunStatus.completed ∧
    runPending.status ≠ RunStatus.error ∧
    runPending.status ≠ RunStatus.cancelled := by
  refine ⟨rfl, rfl, ?_, ?_, ?_⟩ <;> decide

theorem getElem?_of_isPrefix {l1 l2 : List α} {n : Nat} {x : α}
    (hp : l1 <+: l2) (h : l1[n]? = some x) : l2[n]? = some x := by
  obtain ⟨t, rfl⟩ := hp
  have hn : n < l1.length := by
    by_contra hge
    rw [List.getElem?_eq_none (le_of_not_lt hge)] at h
    cases h
  rw [List.getElem?_append, if_pos hn]
  exact h

/-- C6 (amended): `run` performs no validation of the message whatsoever:
with an empty message the run appends the empty user message to the session
transcript (where it remains when the run returns), and the run never fails
with an `InvalidArgument` error — any error it reports originates in a model
backend failure. -/
theorem c6_no_empty_message_validation (cfg : AgentConfig) (reg : ToolRegistry)
    (backend : ModelBackend) (cAt : Option Nat) (w : World) (params : RunParams)
    (hmsg : params.message = "") :
    (∃ (n ts : Nat),
      (msgsS (runAgent cfg reg backend cAt w params).fst.store
        params.sessionId)[n]? =
        some { role := Role.user, content := "", toolCalls := none,
               toolResults := none, timestamp := ts }) ∧
    (∀ e, (runAgent cfg reg backend cAt w params).snd = Except.error e →
      ∃ i ctx, backend i ctx = Except.error e) := by
  constructor
  · obtain ⟨n, ts, hn⟩ := runPrelude_userMsg cfg w params
    rw [hmsg] at hn
    have hl := agentLoopGo_msgs_isPrefix cfg reg backend
      (runPrelude cfg w params).fst params.sessionId cAt maxIterations 1 ""
      (runPrelude cfg w params).snd params.sessionId
    simp only [runAgent]
    split
    · rename_i w2 _res heq
      rw [heq] at hl
      rw [saveSession_msgs_at_sid (cfg.workspace ++ "/sessions") w2.store
        params.sessionId w2.time]
      exact ⟨n, ts, getElem?_of_isPrefix hl hn⟩
    · rename_i w2 e heq
      rw [heq] at hl
      exact ⟨n, ts, getElem?_of_isPrefix hl hn⟩
  · intro e he
    simp only [runAgent] at he
    split at he
    · simp at he
    · rename_i w2 e' heq
      simp only [Except.error.injEq] at he
      subst he
      exact agentLoopGo_error_from_backend cfg reg backend
        (runPrelude cfg w params).fst params.sessionId cAt maxIterations 1 ""
        (runPrelude cfg w params).snd e' (by rw [heq])

/-- C6 witness: the amended theorem applied to a concrete empty-message run. -/
theorem c6_no_empty_message_validation_witness :
    ∃ (n ts : Nat),
      (msgsS (runAgent cfg0 reg0 textBackend none w0
        { sessionId := "main", message := "", runId := some "r1" }).fst.store
        "main")[n]? =
        some { role := Role.user, content := "", toolCalls := none,
               toolResults := none, timestamp := ts } :=
  (c6_no_empty_message_validation cfg0 reg0 textBackend none w0
    { sessionId := "main", message := "", runId := some "r1" } rfl).1

/-- C6 counterexample: a run with an empty message does not fail with
`InvalidArgument`: it calls the model, appends the empty user message to the
session, and completes normally. -/
theorem c6_counterexample :
    (runAgent cfg0 reg0 textBackend none w0
      { sessionId := "main", message := "", runId := some "r1" }).snd.map
      AgentRun.status = Except.ok RunStatus.completed ∧
    ((msgsS (runAgent cfg0 reg0 textBackend none w0
      { sessionId := "main", message := "", runId := some "r1" }).fst.store
      "main")[0]?).map Message.role = some Role.user ∧
    ((msgsS (runAgent cfg0 reg0 textBackend none w0
      { sessionId := "main", message := "", runId := some "r1" }).fst.store
      "main")[0]?).map Message.content = some "" ∧
    (runAgent cfg0 reg0 textBackend none w0
      { sessionId := "main", message := "", runId := some "r1" }).fst.modelCalls
      = 1 := by
  refine ⟨?_, ?_, ?_, ?_⟩ <;> rfl

/-- C3 (amended): the controller has no per-session serialization — among
the schedules the event loop can realize for two concurrent runs on the same
session (order-preserving merges of their await-delimited segments) there is
one whose final transcript differs from both serialized executions, and in
which the second run appends to the shared transcript while the first run's
messages are not yet persisted. -/
theorem c3_no_session_serialization :
    ∃ m : List SAction,
      isMerge (runScript 1) (runScript 2) m = true ∧
      (sExec m { mem := [], disk := [] }).mem ≠
        (sExec (runScript 1 ++ runScript 2) { mem := [], disk := [] }).mem ∧
      (sExec m { mem := [], disk := [] }).mem ≠
        (sExec (runScript 2 ++ runScript 1) { mem := [], disk := [] }).mem ∧
      (sExec [SAction.pushUser 1] { mem := [], disk := [] }).mem ≠
        (sExec [SAction.pushUser 1] { mem := [], disk := [] }).disk := by
  refine ⟨badSchedule, ?_, ?_, ?_, ?_⟩ <;> decide

/-- C3 counterexample: a concrete legal interleaving of two runs on one
session: run 2 appends its user message while run 1 has not persisted
anything, and the final transcript interleaves the two runs' turns — it
matches neither serialized execution. -/
theorem c3_counterexample :
    isMerge (runScript 1) (runScript 2) badSchedule = true ∧
    (sExec badSchedule { mem := [], disk := [] }).mem =
      [SEntry.userMsg 1, SEntry.userMsg 2, SEntry.assistantMsg 1,
       SEntry.assistantMsg 2] ∧
    (sExec (runScript 1 ++ runScript 2) { mem := [], disk := [] }).mem =
      [SEntry.userMsg 1, SEntry.assistantMsg 1, SEntry.userMsg 2,
       SEntry.assistantMsg 2] ∧
    (sExec (runScript 2 ++ runScript 1) { mem := [], disk := [] }).mem =
      [SEntry.userMsg 2, SEntry.assistantMsg 2, SEntry.userMsg 1,
       SEntry.assistantMsg 1] ∧
    (sExec [SAction.pushUser 1] { mem := [], disk := [] }).disk = [] := by
  refine ⟨?_, ?_, ?_, ?_, ?_⟩ <;> decide

/-- C7 (amended): `SessionManager.save` persists a session with a single
direct write of the serialized transcript to its final path — in place, with
no temporary file and no rename, so it does not follow the atomic
temp-and-rename pattern the spec requires. -/
theorem c7_save_writes_in_place (dir : String) (store : Store) (s : Session)
    (t : Nat) :
    (saveSession dir store s t).snd.snd.fst =
      [FsOp.writeFile (sessionPath dir s.id)
        (serializeSession { s with updatedAt := t })] ∧
    ¬ specAtomicReplace (sessionPath dir s.id)
        (saveSession dir store s t).snd.snd.fst := by
  refine ⟨rfl, ?_⟩
  intro h
  have hm := h.1 (FsOp.writeFile (sessionPath dir s.id)
    (serializeSession { s with updatedAt := t })) (by simp [saveSession])
  exact hm rfl

/-- C7 witness: the write trace of a concrete save. -/
theorem c7_save_writes_in_place_witness :
    (saveSession "/ws/sessions" { sessions := [], disk := [] } sess0 5).snd.snd.fst =
      [FsOp.writeFile (sessionPath "/ws/sessions" "main")
        (serializeSession { sess0 with updatedAt := 5 })] ∧
    ¬ specAtomicReplace (sessionPath "/ws/sessions" "main")
        (saveSession "/ws/sessions" { sessions := [], disk := [] } sess0 5).snd.snd.fst :=
  c7_save_writes_in_place "/ws/sessions" { sessions := [], disk := [] } sess0 5

/-- C7 counterexample: a concrete save's write trace is not of the atomic
temp-and-rename shape the claim states: it writes the final session path
directly. -/
theorem c7_counterexample :
    ¬ specAtomicReplace (sessionPath "/ws/sessions" "main")
        (saveSession "/ws/sessions" { sessions := [], disk := [] } sess0 5).snd.snd.fst := by
  intro h
  have hm := h.1 (FsOp.writeFile (sessionPath "/ws/sessions" "main")
    (serializeSession { sess0 with updatedAt := 5 }))
    (by simp [saveSession, sess0])
  exact hm rfl

theorem lookupKey_map_stripPolicyLists (k : String)
    (configs : List (String × ToolConfig)) :
    lookupKey k (configs.map stripPolicyLists) =
      (lookupKey k configs).map
        (fun c => { c with allowlist := none, denylist := none }) := by
  induction configs with
  | nil => rfl
  | cons p rest ih =>
    by_cases hp : p.fst = k
    · simp [lookupKey, stripPolicyLists, hp]
    · simpa [lookupKey, stripPolicyLists, hp] using ih

theorem get_stripPolicyLists (tools : List (String × AgentTool))
    (configs : List (String × ToolConfig)) (name : String) :
    ToolRegistry.get { tools := tools, configs := configs.map stripPolicyLists }
        name =
      ToolRegistry.get { tools := tools, configs := configs } name := by
  unfold ToolRegistry.get
  cases lookupKey name tools with
  | none => rfl
  | some tool =>
    rw [lookupKey_map_stripPolicyLists]
    cases lookupKey name configs with
    | none => rfl
    | some c => rfl

/-- C8 (amended): during tool dispatch only the `enabled` flag is enforced:
`ToolRegistry.get` rejects exactly the tools that are missing or explicitly
disabled, and `executeTools` behaves identically whether or not any
allow/deny lists are configured — the lists are never consulted on the
dispatch path.  The `checkPermission` helper (which the dispatch path never
calls) rejects exactly when no non-empty allow-list is configured and the
deny-list contains the tool name; a configured non-empty allow-list makes it
permit unconditionally. -/
theorem c8_policy_enforcement :
    (∀ (reg : ToolRegistry) (name : String),
      reg.get name = none ↔
        (lookupKey name reg.tools = none ∨
         ∃ c, lookupKey name reg.configs = some c ∧ c.enabled = some false)) ∧
    (∀ (tools : List (String × AgentTool))
      (configs : List (String × ToolConfig)) (calls : List ToolCall),
      executeTools { tools := tools, configs := configs.map stripPolicyLists }
          calls =
        executeTools { tools := tools, configs := configs } calls) ∧
    (∀ (configs : List (String × ToolConfig)) (name : String),
      ToolRegistry.checkPermission configs name = false ↔
        ∃ c, lookupKey name configs = some c ∧
          (c.allowlist.getD []).length = 0 ∧
          (c.denylist.getD []).contains name = true) := by
  refine ⟨?_, ?_, ?_⟩
  · intro reg name
    unfold ToolRegistry.get
    cases ht : lookupKey name reg.tools with
    | none => simp
    | some tool =>
      cases hc : lookupKey name reg.configs with
      | none => simp
      | some c =>
        by_cases he : c.enabled = some false
        · simp [he]
        · simp only [he, if_false]
          constructor
          · intro h
            cases h
          · rintro (h | ⟨c', hc', he'⟩)
            · cases h
            · simp only [Option.some.injEq] at hc'
              subst hc'
              exact absurd he' he
  · intro tools configs calls
    unfold executeTools
    apply List.map_congr_left
    intro call _
    rw [get_stripPolicyLists]
  · intro configs name
    unfold ToolRegistry.checkPermission
    cases hc : lookupKey name configs with
    | none => simp
    | some c =>
      by_cases ha : (c.allowlist.getD []).length > 0
      · simp only [ha, if_true]
        constructor
        · intro h
          cases h
        · rintro ⟨c', hc', hlen, _⟩
          simp only [Option.some.injEq] at hc'
          subst hc'
          omega
      · have hlen : (c.allowlist.getD []).length = 0 := by omega
        by_cases hd : (c.denylist.getD []).contains name = true
        · constructor
          · intro _
            exact ⟨c, rfl, hlen, hd⟩
          · intro _
            have hd' : name ∈ c.denylist.getD [] := by simpa using hd
            simp [ha, hd']
        · constructor
          · intro h
            simp [ha] at h
            exact (hd (by simpa using h)).elim
          · rintro ⟨c', hc', _, hd'⟩
            simp only [Option.some.injEq] at hc'
            subst hc'
            exact absurd hd' hd

/-- C8 witness: the characterizations applied to concrete registries. -/
theorem c8_policy_enforcement_witness :
    (ToolRegistry.checkPermission denyConfigs "t" = false ↔
      ∃ c, lookupKey "t" denyConfigs = some c ∧
        (c.allowlist.getD []).length = 0 ∧
        (c.denylist.getD []).contains "t" = true) ∧
    (reg0.get "t" = none ↔
      (lookupKey "t" reg0.tools = none ∨
       ∃ c, lookupKey "t" reg0.configs = some c ∧ c.enabled = some false)) :=
  ⟨c8_policy_enforcement.2.2 denyConfigs "t",
   c8_policy_enforcement.1 reg0 "t"⟩

/-- C8 counterexample: a deny-listed tool call is dispatched and executes
successfully (the deny-list is never consulted during dispatch); and
`checkPermission` permits both when an allow-list is configured without
matching and when a non-empty allow-list coexists with a matching deny-list
— each contradicting the claim's disabled → deny → allow evaluation order. -/
theorem c8_counterexample :
    executeTools regDeny [call0] =
      [{ callId := "c1", name := "t", result := some "ran", error := none }] ∧
    ToolRegistry.checkPermission allowNoMatchConfigs "t" = true ∧
    ToolRegistry.checkPermission
      [("t", { name := "t", enabled := none, allowlist := some ["other"],
               denylist := some ["t"] })] "t" = true := by
  refine ⟨?_, ?_, ?_⟩ <;> rfl

/-- C10: the path-traversal guard is a string-prefix check on the resolved
path, so a sibling directory sharing the workspace root as a string prefix
escapes it: resolving `../ws-evil/secret` against workspace `/ws` yields
`/ws-evil/secret`, which passes the `startsWith` check, and the tool
proceeds to read a file outside the workspace instead of failing with
`Path traversal detected`.  (A path resolving to a non-prefix location, such
as `../other`, is caught.) -/
theorem c10_path_traversal_prefix_bug :
    fileSystemExecute "/ws" evilArgs = Except.ok (FsAction.read "/ws-evil/secret") ∧
    withinWorkspace "/ws" "/ws-evil/secret" = false ∧
    resolveSafePath "/ws" "../ws-evil/secret" = Except.ok "/ws-evil/secret" ∧
    resolveSafePath "/ws" "../other" = Except.error "Path traversal detected" := by
  refine ⟨?_, ?_, ?_, ?_⟩ <;> rfl

/-- C2: tool-dispatch failures are isolated.  (1) `executeTools` returns one
entry per call; (2) an entry carries the call's id and name, and its error
field is unset exactly when the tool was found, enabled and executed
successfully — every failure (missing or disabled tool, or the tool's own
error) sets the error field; (3) after a turn whose model reply carries tool
calls, the loop appends one assistant message and one tool message per
dispatch entry and proceeds to the next iteration, whatever the dispatch
outcomes were; (4) the loop only ever terminates exceptionally with an error
the model backend itself raised — a tool failure never aborts the run. -/
theorem c2_tool_failures_isolated :
    (∀ (reg : ToolRegistry) (calls : List ToolCall),
      (executeTools reg calls).length = calls.length) ∧
    (∀ (reg : ToolRegistry) (call : ToolCall) (entry : ExecEntry),
      executeTools reg [call] = [entry] →
      entry.callId = call.id ∧ entry.name = call.name ∧
      (entry.error = none ↔
        ∃ tool value, reg.get call.name = some tool ∧
          tool.execute call.id call.arguments = Except.ok value)) ∧
    (∀ (cfg : AgentConfig) (reg : ToolRegistry) (backend : ModelBackend)
      (rid sid : String) (fuel iter : Nat) (ar : String) (w : World)
      (s : Session) (resp : GenerateResult) (c : ToolCall) (cs : List ToolCall),
      lookupKey sid w.store.sessions = some s →
      backend iter (buildContext cfg reg s w.time).fst = Except.ok resp →
      resp.toolCalls = some (c :: cs) →
      (agentLoopGo cfg reg backend rid sid none (fuel + 1) iter ar w =
        agentLoopGo cfg reg backend rid sid none fuel (iter + 1)
          (if resp.text ≠ "" then ar ++ resp.text else ar)
          (pushToolMessages sid (executeTools reg (c :: cs))
            { w with
              store := pushMessage w.store sid
                { role := Role.assistant,
                  content := if resp.text ≠ "" then ar ++ resp.text else ar,
                  toolCalls := some (c :: cs), timestamp := w.time + 1 },
              time := w.time + 2, modelCalls := w.modelCalls + 1 })) ∧
      msgsS (pushToolMessages sid (executeTools reg (c :: cs))
          { w with
            store := pushMessage w.store sid
              { role := Role.assistant,
                content := if resp.text ≠ "" then ar ++ resp.text else ar,
                toolCalls := some (c :: cs), timestamp := w.time + 1 },
            time := w.time + 2, modelCalls := w.modelCalls + 1 }).store sid =
        msgsS w.store sid ++
          ({ role := Role.assistant,
             content := if resp.text ≠ "" then ar ++ resp.text else ar,
             toolCalls := some (c :: cs), toolResults := none,
             timestamp := w.time + 1 } ::
            mkToolMessages (executeTools reg (c :: cs)) (w.time + 2))) ∧
    (∀ (cfg : AgentConfig) (reg : ToolRegistry) (backend : ModelBackend)
      (rid sid : String) (cAt : Option Nat) (fuel iter : Nat) (ar : String)
      (w : World) (e : String),
      (agentLoopGo cfg reg backend rid sid cAt fuel iter ar w).snd =
        Except.error e →
      ∃ i ctx, backend i ctx = Except.error e) := by
  refine ⟨?_, ?_, ?_, ?_⟩
  · intro reg calls
    simp [executeTools]
  · intro reg call entry h
    simp only [executeTools, List.map_cons, List.map_nil,
      List.cons.injEq, and_true] at h
    cases hg : reg.get call.name with
    | none =>
      rw [hg] at h
      subst h
      refine ⟨rfl, rfl, ?_⟩
      simp [hg]
    | some tool =>
      simp only [hg] at h
      cases he : tool.execute call.id call.arguments with
      | ok v =>
        simp only [he] at h
        subst h
        refine ⟨rfl, rfl, ?_⟩
        constructor
        · intro _
          exact ⟨tool, v, rfl, he⟩
        · intro _
          rfl
      | error e =>
        simp only [he] at h
        subst h
        refine ⟨rfl, rfl, ?_⟩
        constructor
        · intro hc
          cases hc
        · rintro ⟨tool', v, hg', he'⟩
          simp only [Option.some.injEq] at hg'
          subst hg'
          rw [he] at he'
          cases he'
  · intro cfg reg backend rid sid fuel iter ar w s resp c cs hsess hb htc
    constructor
    · conv_lhs => rw [agentLoopGo]
      simp only [hsess, Option.getD_some, buildContext] at hb ⊢
      rw [hb]
      simp only [htc]
      simp
    · have hpost := lookup_pushMessage_some w.store sid
        { role := Role.assistant,
          content := if resp.text ≠ "" then ar ++ resp.text else ar,
          toolCalls := some (c :: cs), timestamp := w.time + 1 } s hsess
      have hrun := pushToolMessages_msgs sid (executeTools reg (c :: cs))
        { w with
          store := pushMessage w.store sid
            { role := Role.assistant,
              content := if resp.text ≠ "" then ar ++ resp.text else ar,
              toolCalls := some (c :: cs), timestamp := w.time + 1 },
          time := w.time + 2, modelCalls := w.modelCalls + 1 }
        { s with messages := s.messages ++
            [{ role := Role.assistant,
               content := if resp.text ≠ "" then ar ++ resp.text else ar,
               toolCalls := some (c :: cs), timestamp := w.time + 1 }] }
        hpost
      rw [hrun]
      simp [msgsS, hsess]
  · intro cfg reg backend rid sid cAt fuel iter ar w e he
    exact agentLoopGo_error_from_backend cfg reg backend rid sid cAt fuel iter
      ar w e he

/-- C2 witness: each component applied at concrete inputs — the entry
characterization for a successful dispatch, the loop-continuation equation
for a concrete tool turn, and the backend-origin fact for a failing
backend. -/
theorem c2_tool_failures_isolated_witness :
    (executeTools reg0 [call0]).length = 1 ∧
    (entry0.callId = call0.id ∧ entry0.name = call0.name ∧
      (entry0.error = none ↔
        ∃ tool value, reg0.get call0.name = some tool ∧
          tool.execute call0.id call0.arguments = Except.ok value)) ∧
    (agentLoopGo cfg0 reg0 alwaysToolBackend "r1" "main" none 2 1 "" wSess =
      agentLoopGo cfg0 reg0 alwaysToolBackend "r1" "main" none 1 2 ""
        (pushToolMessages "main" (executeTools reg0 [call0])
          { wSess with
            store := pushMessage wSess.store "main"
              { role := Role.assistant, content := "",
                toolCalls := some [call0], timestamp := 1 },
            time := 2, modelCalls := 1 })) ∧
    (∃ i ctx, errBackend i ctx = Except.error "boom") := by
  refine ⟨c2_tool_failures_isolated.1 reg0 [call0], ?_, ?_, ?_⟩
  · exact c2_tool_failures_isolated.2.1 reg0 call0 entry0 rfl
  · exact (c2_tool_failures_isolated.2.2.1 cfg0 reg0 alwaysToolBackend "r1"
      "main" 1 1 "" wSess sess0 toolResp call0 [] rfl rfl rfl).1
  · exact c2_tool_failures_isolated.2.2.2 cfg0 reg0 errBackend "r1" "main"
      none 1 1 "" wSess "boom" rfl

end Agent
